import Mathlib

/-!
Shallow embedding of the gophermart loyalty-ledger core.

Monetary amounts (Go `float64` columns holding bonus points) are modelled as
rationals `ℚ`; identifiers are `Nat` mirroring the `SERIAL` columns; logins,
order numbers and password hashes are `String`.  Fallible Go operations that
return `(value, error)` are modelled as functions returning the pair of an
`Option`/result and the successor ledger state: every SQL transaction in the
source either commits all of its writes or rolls back to the input state, so a
store operation is one total function `LedgerState → result × LedgerState`.
-/

namespace Gophermart

/-- Internal order statuses (`model.OrderStatus`: NEW, PROCESSING, INVALID,
PROCESSED). -/
inductive OrderStatus where
  | new
  | processing
  | invalid
  | processed
deriving DecidableEq

/-- External accrual-service statuses (`model.OrderAccrualStatus`: REGISTERED,
PROCESSING, INVALID, PROCESSED). -/
inductive OrderAccrualStatus where
  | registered
  | processing
  | invalid
  | processed
deriving DecidableEq

/-- Row of the `users` table. -/
structure User where
  id : Nat
  login : String
  passwordHash : String
deriving DecidableEq

/-- Row of the `orders` table; `accrual` is a nullable FLOAT column
(`none` models SQL NULL, reads COALESCE it to 0). -/
structure Order where
  id : Nat
  userID : Nat
  number : String
  status : OrderStatus
  accrual : Option ℚ
deriving DecidableEq

/-- Row of the `withdrawals` table. -/
structure Withdrawal where
  id : Nat
  userID : Nat
  number : String
  sum : ℚ
deriving DecidableEq

/-- Row of the `balances` table (keyed by `user_id` in the enclosing list). -/
structure Balance where
  current : ℚ
  withdrawn : ℚ
deriving DecidableEq

/-- The whole database state.  The `next…` counters model the `SERIAL`
primary-key sequences. -/
structure LedgerState where
  users : List User
  orders : List Order
  withdrawals : List Withdrawal
  balances : List (Nat × Balance)
  nextUserID : Nat
  nextOrderID : Nat
  nextWithdrawalID : Nat
deriving DecidableEq

/-- Distinguished error values of the storage package (`ErrLoginTaken`,
`ErrNoUser`, `ErrOrderNumUsed`, `ErrOrderNumCreated`, `ErrInsufficientFunds`)
plus the scan failures surfaced as wrapped generic errors. -/
inductive StoreErr where
  | loginTaken
  | noUser
  | orderNumUsed
  | orderNumCreated
  | insufficientFunds
  | orderNotFound
  | noBalanceRow
deriving DecidableEq

/-- Model of Go `strings.ToLower`: lowercase every character of the string. -/
def goToLower (s : String) : String :=
  String.mk (s.data.map Char.toLower)

/-- SELECT over `users` by the (already lowercased) login column. -/
def findUserByLogin (st : LedgerState) (login : String) : Option User :=
  st.users.find? (fun u => u.login == login)

/-- SELECT over `orders` by the unique `number` column
(`DBStorage.GetOrderByNum`). -/
def findOrderByNum (st : LedgerState) (num : String) : Option Order :=
  st.orders.find? (fun o => o.number == num)

/-- SELECT over `orders` by primary key. -/
def findOrderByID (st : LedgerState) (oid : Nat) : Option Order :=
  st.orders.find? (fun o => o.id == oid)

/-- SELECT `current, withdrawn` over `balances` by `user_id`
(`DBStorage.GetUserBalance`). -/
def getBalance (st : LedgerState) (uid : Nat) : Option Balance :=
  (st.balances.find? (fun p => p.1 == uid)).map Prod.snd

/-- UPDATE of the single balance row with the given `user_id` by `f`;
rows with other keys are untouched (SQL `UPDATE balances … WHERE user_id`). -/
def updateBalanceRow (bs : List (Nat × Balance)) (uid : Nat) (f : Balance → Balance) :
    List (Nat × Balance) :=
  bs.map (fun p => if p.1 == uid then (p.1, f p.2) else p)

/-- `DBStorage.CreateUser`: lowercases the login, inserts the user and, in the
same transaction, the zero balance row; a unique violation on `login` is
reported as `ErrLoginTaken` with no writes. -/
def createUser (st : LedgerState) (login passwordHash : String) :
    Except StoreErr Nat × LedgerState :=
  let loginLC := goToLower login
  match findUserByLogin st loginLC with
  | some _ => (.error .loginTaken, st)
  | none =>
    let uid := st.nextUserID
    (.ok uid,
      { st with
        users := st.users ++ [⟨uid, loginLC, passwordHash⟩]
        balances := st.balances ++ [(uid, ⟨0, 0⟩)]
        nextUserID := uid + 1 })

/-- `DBStorage.GetUserByLogin`: lowercases its argument before the lookup. -/
def getUserByLogin (st : LedgerState) (login : String) : Except StoreErr User :=
  match findUserByLogin st (goToLower login) with
  | some u => .ok u
  | none => .error .noUser

/-- `DBStorage.CreateOrder`: inserts the order with status NEW; on a unique
violation of `number` it looks the existing order up and returns the
still-zero `orderID` variable together with `ErrOrderNumCreated` (same user)
or `ErrOrderNumUsed` (other user).  The first component of the result is the
returned `(int, error)` pair. -/
def createOrder (st : LedgerState) (userID : Nat) (orderNum : String) :
    (Nat × Option StoreErr) × LedgerState :=
  match findOrderByNum st orderNum with
  | some o =>
    if o.userID == userID then ((0, some .orderNumCreated), st)
    else ((0, some .orderNumUsed), st)
  | none =>
    let oid := st.nextOrderID
    ((oid, none),
      { st with
        orders := st.orders ++ [⟨oid, userID, orderNum, .new, none⟩]
        nextOrderID := oid + 1 })

/-- Whether a withdrawal with this order number already exists (the unique
constraint on `withdrawals.number`). -/
def withdrawalNumExists (st : LedgerState) (num : String) : Bool :=
  st.withdrawals.any (fun w => w.number == num)

/-- `DBStorage.Withdraw`: one transaction that reads `current` FOR UPDATE,
fails with `ErrInsufficientFunds` when `current < sum`, fails with
`ErrOrderNumUsed` when the withdrawal number is taken, and otherwise inserts
the withdrawal and moves `sum` from `current` to `withdrawn`.  Every failure
rolls the transaction back, leaving the state unchanged. -/
def withdraw (st : LedgerState) (userID : Nat) (sum : ℚ) (orderNum : String) :
    Option StoreErr × LedgerState :=
  match getBalance st userID with
  | none => (some .noBalanceRow, st)
  | some b =>
    if b.current < sum then (some .insufficientFunds, st)
    else if withdrawalNumExists st orderNum then (some .orderNumUsed, st)
    else
      (none,
        { st with
          withdrawals := st.withdrawals ++ [⟨st.nextWithdrawalID, userID, orderNum, sum⟩]
          balances := updateBalanceRow st.balances userID
            (fun b0 => ⟨b0.current - sum, b0.withdrawn + sum⟩)
          nextWithdrawalID := st.nextWithdrawalID + 1 })

/-- Balance credit performed inside `DBStorage.UpdateOrderStatus` when
`accrual > 0` (`UPDATE balances SET current = current + $1 WHERE user_id`). -/
def creditBalance (st : LedgerState) (userID : Nat) (amount : ℚ) : LedgerState :=
  { st with
    balances := updateBalanceRow st.balances userID
      (fun b0 => ⟨b0.current + amount, b0.withdrawn⟩) }

/-- `DBStorage.UpdateOrderStatus`: one transaction that loads the order's
owner (failing when the order is gone), credits the owner's balance by
`accrual` whenever `accrual > 0` regardless of the new status, and writes the
new status and accrual value (NULL when `accrual ≤ 0`) to the order row. -/
def updateOrderStatus (st : LedgerState) (orderID : Nat) (status : OrderStatus)
    (accrual : ℚ) : Option StoreErr × LedgerState :=
  match findOrderByID st orderID with
  | none => (some .orderNotFound, st)
  | some o =>
    let st1 := if 0 < accrual then creditBalance st o.userID accrual else st
    let accrualToUpdate : Option ℚ := if 0 < accrual then some accrual else none
    (none,
      { st1 with
        orders := st1.orders.map (fun q =>
          if q.id == orderID then { q with status := status, accrual := accrualToUpdate }
          else q) })

/-- `DBStorage.GetOrdersToProcess`: all orders whose status is NEW or
PROCESSING (the dispatch loop's query). -/
def getOrdersToProcess (st : LedgerState) : List Order :=
  st.orders.filter (fun o => o.status == .new || o.status == .processing)

/-- Decoded body of the accrual service's 200 response
(`model.AccrualResultRes`). -/
structure AccrualResultRes where
  order : String
  status : OrderAccrualStatus
  accrual : ℚ
deriving DecidableEq

/-- One HTTP response from the accrual service as the agent observes it:
the status code, the result of `time.ParseDuration(RetryAfter + "s")`
(`none` models a parse failure), and the JSON-decoded body (`none` models a
decode failure). -/
structure HTTPResponse where
  statusCode : Nat
  retryAfterSeconds : Option ℚ
  body : Option AccrualResultRes
deriving DecidableEq

/-- Classification of one `AccrualAgent.fetchOrderStatus` call as the worker
consumes it: a decoded verdict, the sentinel `ErrReqLimit`, or any other
error (transport failure, non-2xx status, decode failure). -/
inductive FetchOutcome where
  | verdict (r : AccrualResultRes)
  | reqLimit
  | transientErr
deriving DecidableEq

/-- `AccrualAgent.fetchOrderStatus`, lines 67–101 of `agent/accrual.go`,
as a function of the shared `rateLimitEndTime`, the current time and the
observed response.  A 429 unconditionally overwrites `rateLimitEndTime` with
`now + retryAfter` and returns `ErrReqLimit`; a 204 is turned into an INVALID
verdict for the order; any other non-200 status or a decode failure is a
plain error; a decoded 200 body is returned as the verdict. -/
def fetchOrderStatus (rlEndTime : ℚ) (now : ℚ) (orderNum : String)
    (res : HTTPResponse) : FetchOutcome × ℚ :=
  if res.statusCode == 429 then
    match res.retryAfterSeconds with
    | none => (.transientErr, rlEndTime)
    | some ra => (.reqLimit, now + ra)
  else if res.statusCode == 204 then
    (.verdict ⟨orderNum, .invalid, 0⟩, rlEndTime)
  else if res.statusCode != 200 then
    (.transientErr, rlEndTime)
  else
    match res.body with
    | none => (.transientErr, rlEndTime)
    | some r => (.verdict r, rlEndTime)

/-- The worker's translation of the external status vocabulary (lines
142–148 of `agent/accrual.go`): `orderStatus` starts as PROCESSING and the
switch overrides it only for PROCESSED and INVALID. -/
def translateStatus (s : OrderAccrualStatus) : OrderStatus :=
  match s with
  | .processed => .processed
  | .invalid => .invalid
  | _ => .processing

/-- What the worker does with one fetch outcome for the order in hand:
`continue` the inner loop on `ErrReqLimit`, `break` to the next channel item
on any other error, or call `UpdateOrderStatus` with the translated status
and the response's accrual amount. -/
inductive WorkerAction where
  | applyVerdict (orderID : Nat) (status : OrderStatus) (accrual : ℚ)
  | retrySameOrder
  | abandonOrder
deriving DecidableEq

/-- One iteration of the worker's inner per-order loop (lines 116–153 of
`agent/accrual.go`) after the fetch returned. -/
def workerHandleFetch (order : Order) (f : FetchOutcome) : WorkerAction :=
  match f with
  | .reqLimit => .retrySameOrder
  | .transientErr => .abandonOrder
  | .verdict r => .applyVerdict order.id (translateStatus r.status) r.accrual

/-- Outcome of the worker's inner loop on one order, run against a finite
script of fetch outcomes: the verdict it applied, abandonment after a
transient error, or still retrying after exhausting the script (the loop
itself never gives up on throttling). -/
inductive OrderOutcome where
  | applied (orderID : Nat) (status : OrderStatus) (accrual : ℚ)
  | abandoned
  | stillRetrying
deriving DecidableEq

/-- The worker's inner loop on one order, driven by a script listing the
outcome of each successive fetch. -/
def workerLoop (order : Order) : List FetchOutcome → OrderOutcome
  | [] => .stillRetrying
  | f :: rest =>
    match workerHandleFetch order f with
    | .retrySameOrder => workerLoop order rest
    | .abandonOrder => .abandoned
    | .applyVerdict oid s a => .applied oid s a

/-- The worker's outer loop over successive channel items, each with its own
fetch script: the order in which items are handled and the outcome of each. -/
def workerRun : List (Order × List FetchOutcome) → List OrderOutcome
  | [] => []
  | (o, script) :: rest => workerLoop o script :: workerRun rest

/-- Lifecycle-relevant state of an `AccrualAgent`: whether `ctx` has been
assigned (it is nil until `StartAgent` runs), whether the context has been
cancelled, and whether the orders channel is open. -/
structure AgentLife where
  ctxSet : Bool
  cancelled : Bool
  chOpen : Bool
deriving DecidableEq

/-- `NewAccrualAgent` leaves `ctx`, `ctxCancel` and `ordersCh` at their zero
values: `ctx` is nil. -/
def newAccrualAgent : AgentLife := ⟨false, false, false⟩

/-- `StartAgent`: assigns a fresh cancellable context and a fresh open
channel, whatever the previous state. -/
def startAgent (_ : AgentLife) : AgentLife := ⟨true, false, true⟩

/-- Result of a `StopAgent` call: either the resulting agent state, or the
runtime panic from calling `Err()` on a nil `ctx`. -/
inductive StopResult where
  | stopped (a : AgentLife)
  | nilContextDeref
deriving DecidableEq

/-- `StopAgent` (lines 200–210 of `agent/accrual.go`): evaluates
`aa.ctx.Err()` — a nil-pointer panic if the agent was never started — returns
at once if the context is already cancelled, and otherwise cancels the
context, closes the channel and waits for the workers. -/
def stopAgent (a : AgentLife) : StopResult :=
  if !a.ctxSet then .nilContextDeref
  else if a.cancelled then .stopped a
  else .stopped ⟨a.ctxSet, true, false⟩

/-- HTTP statuses the withdraw handler can answer with. -/
inductive HTTPStatus where
  | ok200
  | badRequest400
  | paymentRequired402
  | conflict409
  | unprocessable422
  | internalError500
deriving DecidableEq

/-- `UserHandler.Withdraw` after body decoding (lines 249 onward of the
handler): rejects an empty or checksum-invalid order number with 422, a
non-positive sum with 400, then calls the store's `Withdraw` and maps its
errors to 402/409/500.  The order-number checksum `utils.IsValidOrderNum` is
passed in as a predicate. -/
def handlerWithdraw (isValidOrderNum : String → Bool) (st : LedgerState)
    (userID : Nat) (sum : ℚ) (orderNum : String) : HTTPStatus × LedgerState :=
  if orderNum == "" || !(isValidOrderNum orderNum) then (.unprocessable422, st)
  else if sum ≤ 0 then (.badRequest400, st)
  else
    match withdraw st userID sum orderNum with
    | (some .insufficientFunds, st2) => (.paymentRequired402, st2)
    | (some .orderNumUsed, st2) => (.conflict409, st2)
    | (some _, st2) => (.internalError500, st2)
    | (none, st2) => (.ok200, st2)

/-- The four mutating store operations, packaged for stating invariants that
every operation preserves. -/
inductive StoreOp where
  | opCreateUser (login passwordHash : String)
  | opCreateOrder (userID : Nat) (num : String)
  | opWithdraw (userID : Nat) (sum : ℚ) (num : String)
  | opUpdateOrder (orderID : Nat) (status : OrderStatus) (accrual : ℚ)

/-- State reached by running one store operation (discarding its result). -/
def applyOp (st : LedgerState) : StoreOp → LedgerState
  | .opCreateUser l p => (createUser st l p).2
  | .opCreateOrder u n => (createOrder st u n).2
  | .opWithdraw u s n => (withdraw st u s n).2
  | .opUpdateOrder oid s a => (updateOrderStatus st oid s a).2

/-- Every balance row holds a non-negative spendable amount. -/
def nonnegBalances (st : LedgerState) : Prop :=
  ∀ p ∈ st.balances, 0 ≤ p.2.current

/-- The `UNIQUE` constraint on `balances.user_id`: one row per user. -/
def uniqueBalanceKeys (st : LedgerState) : Prop :=
  (st.balances.map Prod.fst).Nodup

/-- Example ledger: one user with a zero balance who owns order 7
("79927398713", currently PROCESSING). -/
def exStA : LedgerState :=
  { users := [⟨1, "alice", "h"⟩]
    orders := [⟨7, 1, "79927398713", .processing, none⟩]
    withdrawals := []
    balances := [(1, ⟨0, 0⟩)]
    nextUserID := 2
    nextOrderID := 8
    nextWithdrawalID := 1 }

/-- Example ledger: one user holding a balance of 100 and no orders. -/
def exStB : LedgerState :=
  { users := [⟨1, "alice", "h"⟩]
    orders := []
    withdrawals := []
    balances := [(1, ⟨100, 0⟩)]
    nextUserID := 2
    nextOrderID := 1
    nextWithdrawalID := 1 }

/-! Helper lemmas about list lookups used by several store operations. -/

/-- Updating the balance row keyed `uid` commutes with looking that key up:
the lookup returns the updated row. -/
theorem find?_updateBalanceRow (bs : List (Nat × Balance)) (uid : Nat)
    (f : Balance → Balance) :
    (updateBalanceRow bs uid f).find? (fun p => p.1 == uid)
      = (bs.find? (fun p => p.1 == uid)).map (fun p => (p.1, f p.2)) := by
  induction bs with
  | nil => rfl
  | cons p rest ih =>
    by_cases h : p.1 = uid
    · simp [updateBalanceRow, List.find?_cons, h]
    · simpa [updateBalanceRow, List.find?_cons, h] using ih

/-- With unique keys, any member row with the looked-up key is the row the
lookup returns. -/
theorem find?_of_unique_keys (bs : List (Nat × Balance)) (uid : Nat)
    (q : Nat × Balance) (hu : (bs.map Prod.fst).Nodup) (hq : q ∈ bs)
    (hkey : q.1 = uid) :
    bs.find? (fun p => p.1 == uid) = some q := by
  induction bs with
  | nil => cases hq
  | cons p rest ih =>
    rcases List.mem_cons.mp hq with hhead | htail
    · subst hhead
      rw [List.find?_cons]
      simp [hkey]
    · have hpne : p.1 ≠ uid := by
        intro hcontra
        have hmem : p.1 ∈ rest.map Prod.fst := by
          rw [hcontra, ← hkey]
          exact List.mem_map_of_mem Prod.fst htail
        exact (List.nodup_cons.mp (by simpa using hu)).1 hmem
      rw [List.find?_cons]
      simp only [show (p.1 == uid) = false by simp [hpne]]
      exact ih (List.nodup_cons.mp (by simpa using hu)).2 htail

/-! Theorems settling the claims. -/

/-- C2: counterexample — with the shared cooldown deadline at 100 and the
clock at 10, a throttled response carrying retry-after 5 yields a new
deadline of 15, strictly earlier than the current deadline: the worker
publishes now + retryAfter without checking that it is later. -/
theorem rateLimit_deadline_moved_earlier :
    (fetchOrderStatus 100 10 "79927398713" ⟨429, some 5, none⟩).1 = .reqLimit ∧
    (fetchOrderStatus 100 10 "79927398713" ⟨429, some 5, none⟩).2 < 100 := by
  constructor
  · rfl
  · show (10 : ℚ) + 5 < 100
    norm_num

/-- C2 (amended): on every throttled response whose retry-after header
parses, the worker unconditionally publishes now + retryAfter as the shared
cooldown deadline, whether or not that is later than the current deadline; so
the deadline is not monotone and can be moved earlier by a later response
with a shorter retry-after. -/
theorem rateLimit_deadline_overwritten (rl now ra : ℚ) (num : String)
    (res : HTTPResponse) (h429 : res.statusCode = 429)
    (hra : res.retryAfterSeconds = some ra) :
    fetchOrderStatus rl now num res = (.reqLimit, now + ra) := by
  simp [fetchOrderStatus, h429, hra]

/-- C2 witness: concrete instance of the overwrite behaviour. -/
theorem rateLimit_deadline_overwritten_witness :
    fetchOrderStatus 100 10 "79927398713" ⟨429, some 5, none⟩ = (.reqLimit, 10 + 5) :=
  rateLimit_deadline_overwritten 100 10 5 "79927398713" ⟨429, some 5, none⟩ rfl rfl

/-- Skipping throttled responses: the worker's inner loop ignores any run of
RateLimited outcomes and continues with the rest of the script. -/
theorem workerLoop_replicate_reqLimit (o : Order) (n : Nat) (l : List FetchOutcome) :
    workerLoop o (List.replicate n .reqLimit ++ l) = workerLoop o l := by
  induction n with
  | zero => rfl
  | succ k ih =>
    rw [List.replicate_succ, List.cons_append]
    exact ih

/-- C6: the retry policy is asymmetric — after any number of throttled
responses the worker is still retrying the same order (never abandoned, and a
later verdict is still applied), while a single transient error makes it
abandon the order, moving on to the next channel item. -/
theorem worker_retry_policy (o : Order) (n : Nat) (r : AccrualResultRes)
    (rest : List FetchOutcome) (tail : List (Order × List FetchOutcome)) :
    workerLoop o (List.replicate n .reqLimit ++ [.verdict r])
        = .applied o.id (translateStatus r.status) r.accrual ∧
    workerLoop o (List.replicate n .reqLimit) = .stillRetrying ∧
    workerLoop o (List.replicate n .reqLimit ++ .transientErr :: rest) = .abandoned ∧
    workerRun ((o, List.replicate n .reqLimit ++ .transientErr :: rest) :: tail)
        = .abandoned :: workerRun tail := by
  have habandon : workerLoop o (List.replicate n .reqLimit ++ .transientErr :: rest)
      = .abandoned := by
    rw [workerLoop_replicate_reqLimit]
    rfl
  refine ⟨?_, ?_, habandon, ?_⟩
  · rw [workerLoop_replicate_reqLimit]
    rfl
  · rw [show List.replicate n FetchOutcome.reqLimit
        = List.replicate n FetchOutcome.reqLimit ++ [] from (List.append_nil _).symm,
      workerLoop_replicate_reqLimit]
    rfl
  · rw [workerRun, habandon]

/-- C7: the status vocabulary translation — REGISTERED and PROCESSING
verdicts are applied as internal processing, INVALID as invalid, PROCESSED as
processed, each carrying the response's accrual amount into the store update,
and a 204 "unknown order" response is treated as a verdict with status
INVALID. -/
theorem verdict_translation (o : Order) (num : String) (a : ℚ) (rl now : ℚ)
    (res : HTTPResponse) (h204 : res.statusCode = 204) :
    workerHandleFetch o (.verdict ⟨num, .registered, a⟩)
        = .applyVerdict o.id .processing a ∧
    workerHandleFetch o (.verdict ⟨num, .processing, a⟩)
        = .applyVerdict o.id .processing a ∧
    workerHandleFetch o (.verdict ⟨num, .invalid, a⟩)
        = .applyVerdict o.id .invalid a ∧
    workerHandleFetch o (.verdict ⟨num, .processed, a⟩)
        = .applyVerdict o.id .processed a ∧
    fetchOrderStatus rl now num res = (.verdict ⟨num, .invalid, 0⟩, rl) := by
  refine ⟨rfl, rfl, rfl, rfl, ?_⟩
  simp [fetchOrderStatus, h204]

/-- C7 witness: concrete instance of the translation facts. -/
theorem verdict_translation_witness :
    workerHandleFetch ⟨7, 1, "79927398713", .processing, none⟩
        (.verdict ⟨"79927398713", .registered, 0⟩) = .applyVerdict 7 .processing 0 ∧
    workerHandleFetch ⟨7, 1, "79927398713", .processing, none⟩
        (.verdict ⟨"79927398713", .processing, 0⟩) = .applyVerdict 7 .processing 0 ∧
    workerHandleFetch ⟨7, 1, "79927398713", .processing, none⟩
        (.verdict ⟨"79927398713", .invalid, 0⟩) = .applyVerdict 7 .invalid 0 ∧
    workerHandleFetch ⟨7, 1, "79927398713", .processing, none⟩
        (.verdict ⟨"79927398713", .processed, 0⟩) = .applyVerdict 7 .processed 0 ∧
    fetchOrderStatus 0 0 "79927398713" ⟨204, none, none⟩
        = (.verdict ⟨"79927398713", .invalid, 0⟩, 0) :=
  verdict_translation ⟨7, 1, "79927398713", .processing, none⟩ "79927398713" 0 0 0
    ⟨204, none, none⟩ rfl

/-- C8: counterexample — calling StopAgent on an agent that was never
started dereferences the nil context and panics, so stop is not a no-op in
every already-stopped state. -/
theorem stop_on_never_started_panics :
    stopAgent newAccrualAgent = .nilContextDeref := rfl

/-- C8 (amended): once the agent has been started, stop is idempotent —
stopping a running agent cancels the context and closes the channel (after
which the workers and the dispatch loop exit), and a further StopAgent on the
stopped agent is a no-op; but StopAgent on a never-started agent
dereferences a nil context and panics instead of being a no-op. -/
theorem stop_idempotent_after_start (a b : AgentLife)
    (hctx : b.ctxSet = true) (hcancel : b.cancelled = true) :
    stopAgent (startAgent a) = .stopped ⟨true, true, false⟩ ∧
    stopAgent b = .stopped b ∧
    stopAgent newAccrualAgent = .nilContextDeref := by
  refine ⟨rfl, ?_, rfl⟩
  simp [stopAgent, hctx, hcancel]

/-- C8 witness: concrete instance of idempotent stop after a start. -/
theorem stop_idempotent_after_start_witness :
    stopAgent (startAgent newAccrualAgent) = .stopped ⟨true, true, false⟩ ∧
    stopAgent ⟨true, true, false⟩ = .stopped ⟨true, true, false⟩ ∧
    stopAgent newAccrualAgent = .nilContextDeref :=
  stop_idempotent_after_start newAccrualAgent ⟨true, true, false⟩ rfl rfl

/-- Updating the balance row of a user whose lookup yields `b` makes the
lookup yield `f b`. -/
theorem getBalance_after_updateRow (bs : List (Nat × Balance)) (uid : Nat)
    (f : Balance → Balance) (b : Balance)
    (hb : (bs.find? (fun p => p.1 == uid)).map Prod.snd = some b) :
    ((updateBalanceRow bs uid f).find? (fun p => p.1 == uid)).map Prod.snd
      = some (f b) := by
  rw [find?_updateBalanceRow]
  rcases hq : bs.find? (fun p => p.1 == uid) with _ | q
  · rw [hq] at hb
    cases hb
  · have hqb : q.2 = b := by
      rw [hq] at hb
      simpa using hb
    rw [hq]
    simp [hqb]

/-- C4: withdraw is one atomic transaction over the write-locked balance row:
it fails with InsufficientFunds exactly when current < amount; otherwise it
fails with OrderNumberReused exactly when the order number already exists
among the withdrawals; on success it decrements current by the amount,
increments withdrawn by the amount and inserts the withdrawal row; and on
every failure the ledger state is unchanged. -/
theorem withdraw_spec (st : LedgerState) (uid : Nat) (sum : ℚ) (num : String)
    (b : Balance) (hb : getBalance st uid = some b) :
    ((withdraw st uid sum num).1 = some .insufficientFunds ↔ b.current < sum) ∧
    (¬b.current < sum →
      ((withdraw st uid sum num).1 = some .orderNumUsed ↔
        withdrawalNumExists st num = true)) ∧
    (¬b.current < sum → withdrawalNumExists st num = false →
      (withdraw st uid sum num).1 = none ∧
      getBalance (withdraw st uid sum num).2 uid
          = some ⟨b.current - sum, b.withdrawn + sum⟩ ∧
      (withdraw st uid sum num).2.withdrawals
          = st.withdrawals ++ [⟨st.nextWithdrawalID, uid, num, sum⟩]) ∧
    ((withdraw st uid sum num).1 ≠ none → (withdraw st uid sum num).2 = st) := by
  by_cases hlt : b.current < sum
  · have hw : withdraw st uid sum num = (some .insufficientFunds, st) := by
      simp [withdraw, hb, hlt]
    rw [hw]
    exact ⟨by simp [hlt], fun hc => absurd hlt hc, fun hc => absurd hlt hc, fun _ => rfl⟩
  · by_cases hex : withdrawalNumExists st num
    · have hw : withdraw st uid sum num = (some .orderNumUsed, st) := by
        simp [withdraw, hb, hlt, hex]
      rw [hw]
      refine ⟨by simp [hlt], fun _ => by simp [hex], ?_, fun _ => rfl⟩
      intro _ hfalse
      rw [hex] at hfalse
      cases hfalse
    · have hw : withdraw st uid sum num =
          (none,
            { st with
              withdrawals := st.withdrawals ++ [⟨st.nextWithdrawalID, uid, num, sum⟩]
              balances := updateBalanceRow st.balances uid
                (fun b0 => ⟨b0.current - sum, b0.withdrawn + sum⟩)
              nextWithdrawalID := st.nextWithdrawalID + 1 }) := by
        simp [withdraw, hb, hlt, hex]
      rw [hw]
      refine ⟨by simp [hlt], fun _ => by simp [hex], ?_, fun hne => absurd rfl hne⟩
      intro _ _
      refine ⟨rfl, ?_, rfl⟩
      exact getBalance_after_updateRow st.balances uid
        (fun b0 => ⟨b0.current - sum, b0.withdrawn + sum⟩) b hb

/-- C4 witness: the spec scenario — a user with balance 100 withdrawing 150
fails with insufficient funds. -/
theorem withdraw_spec_witness :
    (withdraw exStB 1 150 "12345678903").1 = some .insufficientFunds :=
  ((withdraw_spec exStB 1 150 "12345678903" ⟨100, 0⟩ rfl).1).mpr (by norm_num)

/-- C5: counterexample — resubmitting "79927398713" by its owning user
returns order id 0 together with the owned-by-self condition, not the
existing order's id 7, and leaves the state unchanged. -/
theorem createOrder_resubmit_returns_zero :
    findOrderByNum exStA "79927398713"
        = some ⟨7, 1, "79927398713", .processing, none⟩ ∧
    createOrder exStA 1 "79927398713" = ((0, some .orderNumCreated), exStA) ∧
    (0 : Nat) ≠ 7 := by
  refine ⟨rfl, by decide, by norm_num⟩

/-- C5 (amended): createOrder with a number already owned by the same user
returns order id 0 — the zero value, not the existing order's id — together
with the owned-by-self condition and inserts no row; with a number owned by a
different user it fails with the owned-by-other condition; on first insertion
the order is created with status new. -/
theorem createOrder_spec (st : LedgerState) (uid : Nat) (num : String) :
    (∀ o, findOrderByNum st num = some o → o.userID = uid →
      createOrder st uid num = ((0, some .orderNumCreated), st)) ∧
    (∀ o, findOrderByNum st num = some o → o.userID ≠ uid →
      createOrder st uid num = ((0, some .orderNumUsed), st)) ∧
    (findOrderByNum st num = none →
      (createOrder st uid num).1 = (st.nextOrderID, none) ∧
      (createOrder st uid num).2.orders
          = st.orders ++ [⟨st.nextOrderID, uid, num, .new, none⟩]) := by
  refine ⟨?_, ?_, ?_⟩
  · intro o ho hou
    simp [createOrder, ho, hou]
  · intro o ho hou
    simp [createOrder, ho, hou]
  · intro hnone
    simp [createOrder, hnone]

/-- C5 witness: concrete instance — the owner's resubmission yields id 0 with
the owned-by-self condition and no state change. -/
theorem createOrder_spec_witness :
    createOrder exStA 1 "79927398713" = ((0, some .orderNumCreated), exStA) :=
  (createOrder_spec exStA 1 "79927398713").1
    ⟨7, 1, "79927398713", .processing, none⟩ rfl rfl

/-- C10: logins are case-insensitive at the store interface — createUser
stores the lowercased login, a second registration whose login differs only
in letter case fails as a duplicate login, and lookup by the differently
cased login finds the same account. -/
theorem login_case_insensitive (st : LedgerState) (l1 l2 pwd1 pwd2 : String)
    (hcase : goToLower l1 = goToLower l2)
    (hfresh : findUserByLogin st (goToLower l1) = none) :
    (createUser st l1 pwd1).1 = .ok st.nextUserID ∧
    (createUser (createUser st l1 pwd1).2 l2 pwd2).1 = .error .loginTaken ∧
    getUserByLogin (createUser st l1 pwd1).2 l2
        = .ok ⟨st.nextUserID, goToLower l1, pwd1⟩ := by
  have hfresh2 : findUserByLogin st (goToLower l2) = none := by
    rw [← hcase]
    exact hfresh
  have hstep : (createUser st l1 pwd1).2.users
      = st.users ++ [⟨st.nextUserID, goToLower l1, pwd1⟩] := by
    simp [createUser, hfresh]
  have hfind : findUserByLogin (createUser st l1 pwd1).2 (goToLower l2)
      = some ⟨st.nextUserID, goToLower l1, pwd1⟩ := by
    rw [findUserByLogin, hstep, List.find?_append]
    rw [findUserByLogin] at hfresh2
    rw [hfresh2]
    simp [List.find?_cons, hcase]
  refine ⟨by simp [createUser, hfresh], ?_, ?_⟩
  · have h2 : createUser (createUser st l1 pwd1).2 l2 pwd2
        = (.error .loginTaken, (createUser st l1 pwd1).2) := by
      generalize hX : (createUser st l1 pwd1).2 = X at hfind
      simp [createUser, hfind]
    rw [h2]
  · have h3 : getUserByLogin (createUser st l1 pwd1).2 l2
        = .ok ⟨st.nextUserID, goToLower l1, pwd1⟩ := by
      generalize hX : (createUser st l1 pwd1).2 = X at hfind
      simp [getUserByLogin, hfind]
    exact h3

/-- C10 witness: "Alice" then "aLICE" on an empty store — the second
registration fails as a duplicate and lookup by "aLICE" finds the account. -/
theorem login_case_insensitive_witness :
    (createUser ⟨[], [], [], [], 1, 1, 1⟩ "Alice" "h1").1 = .ok 1 ∧
    (createUser (createUser ⟨[], [], [], [], 1, 1, 1⟩ "Alice" "h1").2 "aLICE" "h2").1
        = .error .loginTaken ∧
    getUserByLogin (createUser ⟨[], [], [], [], 1, 1, 1⟩ "Alice" "h1").2 "aLICE"
        = .ok ⟨1, goToLower "Alice", "h1"⟩ :=
  login_case_insensitive ⟨[], [], [], [], 1, 1, 1⟩ "Alice" "aLICE" "h1" "h2"
    (by decide) rfl

/-- C1: counterexample — applying the processed-with-accrual-500 verdict to
order 7 twice credits the owner's balance twice: the balance ends at 1000
rather than 500, so re-applying the same verdict is a second credit. -/
theorem double_apply_credits_twice :
    getBalance (updateOrderStatus (updateOrderStatus exStA 7 .processed 500).2
        7 .processed 500).2 1 = some ⟨1000, 0⟩ ∧
    (⟨1000, 0⟩ : Balance) ≠ ⟨500, 0⟩ := by
  constructor
  · simp [updateOrderStatus, findOrderByID, exStA, creditBalance,
      updateBalanceRow, getBalance]
    norm_num
  · intro hcontra
    have h1000 : (1000 : ℚ) = 500 := congrArg Balance.current hcontra
    norm_num at h1000

/-- C1 (amended): one application of a processed verdict with accrual A > 0
credits the owner's balance by exactly A and marks the order processed with
that accrual; the store operation itself is not idempotent — a second
application credits A again — but re-application through the reconciliation
loop is prevented because a processed order is excluded from
GetOrdersToProcess and is therefore never dispatched again. -/
theorem update_order_credits_exactly_once (st : LedgerState) (oid : Nat)
    (o : Order) (A : ℚ) (b : Balance)
    (ho : findOrderByID st oid = some o) (hA : 0 < A)
    (hb : getBalance st o.userID = some b) :
    (updateOrderStatus st oid .processed A).1 = none ∧
    getBalance (updateOrderStatus st oid .processed A).2 o.userID
        = some ⟨b.current + A, b.withdrawn⟩ ∧
    (∀ q ∈ (updateOrderStatus st oid .processed A).2.orders,
      q.id = oid → q.status = .processed ∧ q.accrual = some A) ∧
    (∀ q ∈ getOrdersToProcess (updateOrderStatus st oid .processed A).2,
      q.id ≠ oid) := by
  have hupd : updateOrderStatus st oid .processed A =
      (none,
        { st with
          balances := updateBalanceRow st.balances o.userID
            (fun b0 => ⟨b0.current + A, b0.withdrawn⟩)
          orders := st.orders.map (fun q =>
            if q.id == oid then { q with status := OrderStatus.processed, accrual := some A }
            else q) }) := by
    simp [updateOrderStatus, ho, creditBalance, hA]
  have hordstat : ∀ q ∈ st.orders.map (fun q =>
      if q.id == oid then { q with status := OrderStatus.processed, accrual := some A }
      else q), q.id = oid → q.status = .processed ∧ q.accrual = some A := by
    intro q hq hid
    rcases List.mem_map.mp hq with ⟨p, hp, hfp⟩
    by_cases hpid : p.id = oid
    · rw [← hfp]
      simp [hpid]
    · rw [← hfp] at hid
      simp [hpid] at hid
  refine ⟨by rw [hupd], ?_, ?_, ?_⟩
  · rw [hupd]
    exact getBalance_after_updateRow st.balances o.userID
      (fun b0 => ⟨b0.current + A, b0.withdrawn⟩) b hb
  · intro q hq hid
    rw [hupd] at hq
    exact hordstat q hq hid
  · intro q hq hqid
    rw [hupd] at hq
    unfold getOrdersToProcess at hq
    rcases List.mem_filter.mp hq with ⟨hmem, hpred⟩
    have hstat := hordstat q (by simpa using hmem) hqid
    rw [hstat.1] at hpred
    simp at hpred

/-- C1 witness: applying the processed verdict with accrual 500 once raises
the owner's balance from 0 to 500. -/
theorem update_order_credits_exactly_once_witness :
    getBalance (updateOrderStatus exStA 7 .processed 500).2 1
        = some ⟨(0 : ℚ) + 500, 0⟩ :=
  (update_order_credits_exactly_once exStA 7
    ⟨7, 1, "79927398713", .processing, none⟩ 500 ⟨0, 0⟩ rfl (by norm_num) rfl).2.1

/-- C3: counterexample — applying a verdict whose status is processing but
whose accrual is 50 raises the owner's balance from 0 to 50: the credit is
guarded only by the accrual amount, so a processing verdict can change the
balance. -/
theorem processing_verdict_changes_balance :
    getBalance exStA 1 = some ⟨0, 0⟩ ∧
    getBalance (updateOrderStatus exStA 7 .processing 50).2 1 = some ⟨50, 0⟩ ∧
    (⟨50, 0⟩ : Balance) ≠ ⟨0, 0⟩ := by
  refine ⟨rfl, ?_, ?_⟩
  · simp [updateOrderStatus, findOrderByID, exStA, creditBalance,
      updateBalanceRow, getBalance]
  · intro hcontra
    have h50 : (50 : ℚ) = 0 := congrArg Balance.current hcontra
    norm_num at h50

/-- C3 (amended): with one balance row per user, every store operation keeps
every balance non-negative; a verdict with accrual ≤ 0 leaves all balances
unchanged whatever its status, and a verdict with accrual > 0 credits the
owner whatever its status; createOrder never touches balances. -/
theorem balance_invariant (st : LedgerState) (op : StoreOp)
    (hnn : nonnegBalances st) (hu : uniqueBalanceKeys st) :
    nonnegBalances (applyOp st op) ∧
    (∀ oid s a, a ≤ 0 → (updateOrderStatus st oid s a).2.balances = st.balances) ∧
    (∀ u n, (createOrder st u n).2.balances = st.balances) := by
  refine ⟨?_, ?_, ?_⟩
  · cases op with
    | opCreateUser l p =>
      rcases hf : findUserByLogin st (goToLower l) with _ | u
      · intro q hq
        rw [show (applyOp st (.opCreateUser l p)).balances
            = st.balances ++ [(st.nextUserID, ⟨0, 0⟩)] by
          simp [applyOp, createUser, hf]] at hq
        rcases List.mem_append.mp hq with hold | hnew
        · exact hnn q hold
        · rw [List.mem_singleton.mp hnew]
      · intro q hq
        rw [show (applyOp st (.opCreateUser l p)).balances = st.balances by
          simp [applyOp, createUser, hf]] at hq
        exact hnn q hq
    | opCreateOrder u n =>
      intro q hq
      rw [show (applyOp st (.opCreateOrder u n)).balances = st.balances by
        rcases hf : findOrderByNum st n with _ | o
        · simp [applyOp, createOrder, hf]
        · by_cases ho : o.userID = u <;> simp [applyOp, createOrder, hf, ho]] at hq
      exact hnn q hq
    | opWithdraw u s n =>
      rcases hgb : getBalance st u with _ | b
      · intro q hq
        rw [show (applyOp st (.opWithdraw u s n)).balances = st.balances by
          simp [applyOp, withdraw, hgb]] at hq
        exact hnn q hq
      · by_cases hlt : b.current < s
        · intro q hq
          rw [show (applyOp st (.opWithdraw u s n)).balances = st.balances by
            simp [applyOp, withdraw, hgb, hlt]] at hq
          exact hnn q hq
        · by_cases hex : withdrawalNumExists st n
          · intro q hq
            rw [show (applyOp st (.opWithdraw u s n)).balances = st.balances by
              simp [applyOp, withdraw, hgb, hlt, hex]] at hq
            exact hnn q hq
          · intro q hq
            rw [show (applyOp st (.opWithdraw u s n)).balances
                = updateBalanceRow st.balances u
                  (fun b0 => ⟨b0.current - s, b0.withdrawn + s⟩) by
              simp [applyOp, withdraw, hgb, hlt, hex]] at hq
            rcases List.mem_map.mp hq with ⟨p, hp, hfp⟩
            by_cases hpu : p.1 = u
            · have hfind := find?_of_unique_keys st.balances u p hu hp hpu
              have hpb : p.2 = b := by
                unfold getBalance at hgb
                rw [hfind] at hgb
                simpa using hgb
              rw [← hfp]
              simp only [hpu, beq_self_eq_true, if_true]
              show (0 : ℚ) ≤ p.2.current - s
              rw [hpb]
              exact sub_nonneg.mpr (not_lt.mp hlt)
            · rw [← hfp]
              simp only [show (p.1 == u) = false by simp [hpu], Bool.false_eq_true,
                if_false]
              exact hnn p hp
    | opUpdateOrder oid s a =>
      rcases hf : findOrderByID st oid with _ | o
      · intro q hq
        rw [show (applyOp st (.opUpdateOrder oid s a)).balances = st.balances by
          simp [applyOp, updateOrderStatus, hf]] at hq
        exact hnn q hq
      · by_cases ha : 0 < a
        · intro q hq
          rw [show (applyOp st (.opUpdateOrder oid s a)).balances
              = updateBalanceRow st.balances o.userID
                (fun b0 => ⟨b0.current + a, b0.withdrawn⟩) by
            simp [applyOp, updateOrderStatus, hf, ha, creditBalance]] at hq
          rcases List.mem_map.mp hq with ⟨p, hp, hfp⟩
          by_cases hpu : p.1 = o.userID
          · rw [← hfp]
            simp only [hpu, beq_self_eq_true, if_true]
            show (0 : ℚ) ≤ p.2.current + a
            exact add_nonneg (hnn p hp) (le_of_lt ha)
          · rw [← hfp]
            simp only [show (p.1 == o.userID) = false by simp [hpu],
              Bool.false_eq_true, if_false]
            exact hnn p hp
        · intro q hq
          rw [show (applyOp st (.opUpdateOrder oid s a)).balances = st.balances by
            simp [applyOp, updateOrderStatus, hf, ha]] at hq
          exact hnn q hq
  · intro oid s a ha
    rcases hf : findOrderByID st oid with _ | o
    · simp [updateOrderStatus, hf]
    · have hna : ¬0 < a := not_lt.mpr ha
      simp [updateOrderStatus, hf, hna]
  · intro u n
    rcases hf : findOrderByNum st n with _ | o
    · simp [createOrder, hf]
    · by_cases ho : o.userID = u <;> simp [createOrder, hf, ho]

/-- C3 witness: an invalid verdict with accrual 0 leaves the example ledger's
balances unchanged. -/
theorem balance_invariant_witness :
    (updateOrderStatus exStA 7 .invalid 0).2.balances = exStA.balances :=
  (balance_invariant exStA (.opCreateOrder 1 "2377225624")
    (by intro p hp; simp [exStA] at hp; rw [hp])
    (by simp [uniqueBalanceKeys, exStA])).2.1 7 .invalid 0 le_rfl

/-- Whatever its outcome, the withdraw transaction leaves the withdrawals
table either untouched or extended by exactly the requested row. -/
theorem withdraw_withdrawals_cases (st : LedgerState) (uid : Nat) (sum : ℚ)
    (num : String) :
    (withdraw st uid sum num).2.withdrawals = st.withdrawals ∨
    (withdraw st uid sum num).2.withdrawals
      = st.withdrawals ++ [⟨st.nextWithdrawalID, uid, num, sum⟩] := by
  rcases hgb : getBalance st uid with _ | b
  · left
    simp [withdraw, hgb]
  · by_cases hlt : b.current < sum
    · left
      simp [withdraw, hgb, hlt]
    · by_cases hex : withdrawalNumExists st num
      · left
        simp [withdraw, hgb, hlt, hex]
      · right
        simp [withdraw, hgb, hlt, hex]

/-- The withdraw handler leaves the ledger untouched unless the requested
amount was positive, in which case the final state is the store
transaction's. -/
theorem handlerWithdraw_state_cases (valid : String → Bool) (st : LedgerState)
    (uid : Nat) (sum : ℚ) (num : String) :
    (handlerWithdraw valid st uid sum num).2 = st ∨
    (¬sum ≤ 0 ∧
      (handlerWithdraw valid st uid sum num).2 = (withdraw st uid sum num).2) := by
  by_cases h422 : (num == "" || !(valid num)) = true
  · left
    simp [handlerWithdraw, h422]
  · by_cases hsum : sum ≤ 0
    · left
      simp [handlerWithdraw, h422, hsum]
    · right
      refine ⟨hsum, ?_⟩
      rcases hw : withdraw st uid sum num with ⟨err, st2⟩
      rcases err with _ | e
      · simp [handlerWithdraw, h422, hsum, hw]
      · cases e <;> simp [handlerWithdraw, h422, hsum, hw]

/-- C9: the withdraw endpoint only ever inserts withdrawal rows with a
strictly positive amount: a request with sum ≤ 0 is rejected with 400 before
the store transaction runs, and after any handler call every withdrawal row
either predates the call or carries the requested positive amount. -/
theorem handler_withdraw_positive_sums (valid : String → Bool)
    (st : LedgerState) (uid : Nat) (sum : ℚ) (num : String) :
    (num ≠ "" → valid num = true → sum ≤ 0 →
      handlerWithdraw valid st uid sum num = (.badRequest400, st)) ∧
    (∀ w ∈ (handlerWithdraw valid st uid sum num).2.withdrawals,
      w ∈ st.withdrawals ∨ 0 < w.sum) := by
  constructor
  · intro h1 h2 h3
    simp [handlerWithdraw, h1, h2, h3]
  · intro w hw
    rcases handlerWithdraw_state_cases valid st uid sum num with hcase | ⟨hpos, hcase⟩
    · rw [hcase] at hw
      exact Or.inl hw
    · rw [hcase] at hw
      rcases withdraw_withdrawals_cases st uid sum num with hc2 | hc2
      · rw [hc2] at hw
        exact Or.inl hw
      · rw [hc2] at hw
        rcases List.mem_append.mp hw with hold | hnew
        · exact Or.inl hold
        · right
          rw [List.mem_singleton.mp hnew]
          exact not_le.mp hpos

/-- C9 witness: a withdrawal request for 0 is rejected with 400 and the
state is unchanged. -/
theorem handler_withdraw_positive_sums_witness :
    handlerWithdraw (fun _ => true) exStB 1 0 "2377225624"
        = (.badRequest400, exStB) :=
  (handler_withdraw_positive_sums (fun _ => true) exStB 1 0 "2377225624").1
    (by decide) rfl le_rfl

end Gophermart
